import Mathlib

/-!
# Verification of the ElevenLabs credit-usage analyzer (`credits.py`)

Shallow embedding of the program's pure logic:

* `normalize_timestamp`, `format_timestamp` — the timestamp normalizer.
* `get_speech_history` — the id-cursor paginated speech-history fetcher with
  its time-window early stop.  The remote client is modelled as the list of
  page responses it would produce, consumed in order; an `Except.error`
  element models a transport exception raised by the page fetch.
* `get_conversation_history` — the cursor-paginated conversation fetcher with
  per-session detail enrichment; the per-id detail endpoint is modelled as a
  function from conversation id to `Except String DetailedConv`.
* `summarize_usage` — the aggregator.  Its input records are duck-typed
  dictionaries in the original, so every field read with `call.get(...)` is an
  `Option`, and the subscript reads `call["type"]` / `call["formatted_time"]`
  are partial: the Lean function returns `Except String UsageSummary`, erring
  exactly where the original raises `KeyError`.
* `mainExitCode` — the exit-code logic of `main` (credential check, window
  validation, client construction); file/console output is elided.

Machine integers do not overflow here (Python integers are unbounded), so all
arithmetic is over `Int`/`Nat`.  Fields of remote records that no analyzed
property consumes (voice settings, feedback payloads) are elided.
-/

/-- `normalize_timestamp`: convert a timestamp to milliseconds if it is in
seconds, using the fixed year-3000 threshold. -/
def normalize_timestamp (timestamp : Int) : Int :=
  if timestamp < 32503680000 then timestamp * 1000 else timestamp

/-- Zero-pad a nonnegative integer to two digits (`strftime` field). -/
def pad2 (n : Int) : String :=
  if n < 10 then "0" ++ toString n else toString n

/-- Zero-pad a nonnegative integer to four digits (`strftime` year field). -/
def pad4 (n : Int) : String :=
  if n < 10 then "000" ++ toString n
  else if n < 100 then "00" ++ toString n
  else if n < 1000 then "0" ++ toString n
  else toString n

/-- Convert a count of days since the Unix epoch to a civil `(year, month,
day)` date in the proleptic Gregorian calendar (the computation performed by
`datetime.utcfromtimestamp`). -/
def civilFromDays (z0 : Int) : Int × Int × Int :=
  let z := z0 + 719468
  let era := z.fdiv 146097
  let doe := z - era * 146097
  let yoe := (doe - doe.fdiv 1460 + doe.fdiv 36524 - doe.fdiv 146096).fdiv 365
  let y := yoe + era * 400
  let doy := doe - (365 * yoe + yoe.fdiv 4 - yoe.fdiv 100)
  let mp := (5 * doy + 2).fdiv 153
  let d := doy - (153 * mp + 2).fdiv 5 + 1
  let m := if mp < 10 then mp + 3 else mp - 9
  (if m ≤ 2 then y + 1 else y, m, d)

/-- `format_timestamp`: render a millisecond timestamp as
`"YYYY-MM-DD HH:MM:SS UTC"`, interpreting `ms / 1000` seconds since the epoch
in UTC (the float division of the original is exact at second granularity for
every timestamp this program handles, so it is modelled as floor division). -/
def format_timestamp (timestamp_ms : Int) : String :=
  let secs := timestamp_ms.fdiv 1000
  let days := secs.fdiv 86400
  let sod := secs - days * 86400
  let hh := sod.fdiv 3600
  let mm := (sod - hh * 3600).fdiv 60
  let ss := sod - hh * 3600 - mm * 60
  let ymd := civilFromDays days
  pad4 ymd.1 ++ "-" ++ pad2 ymd.2.1 ++ "-" ++ pad2 ymd.2.2 ++ " " ++
    pad2 hh ++ ":" ++ pad2 mm ++ ":" ++ pad2 ss ++ " UTC"

/-! ## Speech-generation history (`get_speech_history`) -/

/-- One item of a `client.history.list` response page.  The pair of
`character_count_change_from` / `character_count_change_to` attributes is
present or absent as a unit, mirroring the paired `hasattr` test of
`calculate_credits_used`; when it is absent, building the result record raises
(`item.character_count_change_from` is read unconditionally there). -/
structure SpeechItem where
  history_item_id : String := ""
  date_unix : Int := 0
  charChange : Option (Int × Int) := none
  text : String := ""
  voice_id : String := ""
  voice_name : Option String := none
  voice_category : Option String := none
  model_id : String := ""
  content_type : String := ""
  source : Option String := none
  request_id : String := ""
  deriving DecidableEq, Repr

/-- One `client.history.list` response page.  The opaque
`last_history_item_id` pagination token is implicit in the order of the page
list that models the client. -/
structure SpeechPage where
  history : List SpeechItem := []
  has_more : Bool := false
  deriving DecidableEq, Repr

/-- `calculate_credits_used`: character-count delta, `0` when the counters are
absent. -/
def calculate_credits_used (item : SpeechItem) : Int :=
  match item.charChange with
  | some (f, t) => f - t
  | none => 0

/-- The dictionary built for one in-window speech-generation call. -/
structure SpeechRecord where
  type : String := "speech_generation"
  id : String := ""
  timestamp : Int := 0
  timestamp_ms : Int := 0
  formatted_time : String := ""
  credits_used : Int := 0
  text : String := ""
  voice_id : String := ""
  voice_name : Option String := none
  voice_category : Option String := none
  model_id : String := ""
  content_type : String := ""
  source : Option String := none
  character_count_from : Int := 0
  character_count_to : Int := 0
  request_id : String := ""
  deriving DecidableEq, Repr

/-- The `call_data` dictionary built by `get_speech_history` for an in-window
item whose character counters `(f, t)` are present. -/
def mkSpeechRecord (item : SpeechItem) (f t : Int) : SpeechRecord :=
  let item_time_ms := item.date_unix * 1000
  { type := "speech_generation"
    id := item.history_item_id
    timestamp := item.date_unix
    timestamp_ms := item_time_ms
    formatted_time := format_timestamp item_time_ms
    credits_used := calculate_credits_used item
    text := item.text
    voice_id := item.voice_id
    voice_name := item.voice_name
    voice_category := item.voice_category
    model_id := item.model_id
    content_type := item.content_type
    source := item.source
    character_count_from := f
    character_count_to := t
    request_id := item.request_id }

/-- The per-item loop of `get_speech_history` over one page's `history`.
Returns the accumulated records plus a flag that is `true` when the scan ended
the whole fetch: either the early `return` on an item strictly older than
`start_ms`, or the exception raised while building a record whose character
counters are absent (caught by the surrounding `except`, which breaks out with
the records accumulated so far). -/
def speechScan (start_ms end_ms : Int) (acc : List SpeechRecord) :
    List SpeechItem → List SpeechRecord × Bool
  | [] => (acc, false)
  | item :: rest =>
    if start_ms ≤ item.date_unix * 1000 ∧ item.date_unix * 1000 ≤ end_ms then
      match item.charChange with
      | some (f, t) =>
          speechScan start_ms end_ms (acc ++ [mkSpeechRecord item f t]) rest
      | none => (acc, true)
    else if item.date_unix * 1000 < start_ms then (acc, true)
    else speechScan start_ms end_ms acc rest

/-- The page loop of `get_speech_history`.  An `Except.error` page models an
exception raised by the page fetch (caught: break, return the accumulator); an
exhausted page list models a source with no further data. -/
def speechGo (start_ms end_ms : Int) (acc : List SpeechRecord) :
    List (Except String SpeechPage) → List SpeechRecord
  | [] => acc
  | Except.error _ :: _ => acc
  | Except.ok page :: rest =>
    if page.history.isEmpty then acc
    else if (speechScan start_ms end_ms acc page.history).2 then
      (speechScan start_ms end_ms acc page.history).1
    else if page.has_more then
      speechGo start_ms end_ms (speechScan start_ms end_ms acc page.history).1 rest
    else (speechScan start_ms end_ms acc page.history).1

/-- `get_speech_history`: fetch all speech-generation records inside
`[start_ms, end_ms]` from the paginated source. -/
def get_speech_history (start_ms end_ms : Int)
    (pages : List (Except String SpeechPage)) : List SpeechRecord :=
  speechGo start_ms end_ms [] pages

/-! ## Conversational-AI history (`get_conversation_history`) -/

/-- One list-level conversation summary from
`client.conversational_ai.conversations.list`. -/
structure ConvListItem where
  conversation_id : String := ""
  agent_id : String := ""
  start_time_unix_secs : Int := 0
  call_duration_secs : Int := 0
  status : String := ""
  deriving DecidableEq, Repr

/-- The token-usage sub-record a transcript entry may expose; its
`total_tokens` attribute may itself be absent. -/
structure LlmUsage where
  total_tokens : Option Int := none
  deriving DecidableEq, Repr

/-- One transcript entry of a detailed conversation.  `llm_usage = none`
models the attribute being absent or `None` (the original guards with
`hasattr` plus a truthiness test). -/
structure TranscriptItem where
  role : String := ""
  llm_usage : Option LlmUsage := none
  deriving DecidableEq, Repr

/-- The `metadata` sub-record of a detailed conversation. -/
structure ConvMetadata where
  start_time_unix_secs : Int := 0
  call_duration_secs : Int := 0
  cost : Option Int := none
  accepted_time_unix_secs : Option Int := none
  termination_reason : Option String := none
  main_language : Option String := none
  deriving DecidableEq, Repr

/-- A detailed conversation as returned by the per-id detail endpoint.
`metadata = none` models a `None` metadata attribute: every enrichment path
reads through it, so its absence raises and degrades the record. -/
structure DetailedConv where
  metadata : Option ConvMetadata := none
  transcript : List TranscriptItem := []
  deriving DecidableEq, Repr

/-- The role-count summary derived from a transcript. -/
structure TranscriptSummary where
  total_items : Nat := 0
  user_messages : Nat := 0
  assistant_messages : Nat := 0
  deriving DecidableEq, Repr

/-- The dictionary built for one conversational-AI session.  The enriched
variant fills every field and leaves `error = none`; the degraded variant
carries only the list-level fields plus `error = some msg`. -/
structure ConvRecord where
  type : String := "conversational_ai"
  id : String := ""
  agent_id : String := ""
  timestamp : Int := 0
  timestamp_ms : Int := 0
  formatted_time : String := ""
  credits_used : Int := 0
  duration_secs : Int := 0
  status : String := ""
  total_llm_tokens : Option Int := none
  accepted_time : Option Int := none
  termination_reason : Option String := none
  main_language : Option String := none
  transcript_summary : Option TranscriptSummary := none
  error : Option String := none
  deriving DecidableEq, Repr

/-- Tokens contributed by one transcript entry to `total_llm_tokens`: its
`total_tokens` when a token-usage sub-record exposing that attribute is
present, `0` otherwise. -/
def llmTokensOf (t : TranscriptItem) : Int :=
  match t.llm_usage with
  | none => 0
  | some u =>
    match u.total_tokens with
    | none => 0
    | some n => n

/-- The body of the inner `try` of `get_conversation_history` after the
detail fetch succeeded: compute `total_cost` and `total_llm_tokens`, derive
the transcript summary and build the enriched record.  Reading through an
absent `metadata` raises, modelled as `Except.error`. -/
def enrichConversation (conversation : ConvListItem) (detailed_conv : DetailedConv) :
    Except String ConvRecord :=
  match detailed_conv.metadata with
  | none => Except.error "AttributeError: metadata"
  | some md =>
    let total_cost : Int := (md.cost).getD 0
    let total_llm_tokens :=
      detailed_conv.transcript.foldl (fun acc t => acc + llmTokensOf t) 0
    Except.ok
      { type := "conversational_ai"
        id := conversation.conversation_id
        agent_id := conversation.agent_id
        timestamp := md.start_time_unix_secs
        timestamp_ms := md.start_time_unix_secs * 1000
        formatted_time := format_timestamp (md.start_time_unix_secs * 1000)
        credits_used := total_cost
        duration_secs := md.call_duration_secs
        status := conversation.status
        total_llm_tokens := some total_llm_tokens
        accepted_time := md.accepted_time_unix_secs
        termination_reason := md.termination_reason
        main_language := md.main_language
        transcript_summary := some
          { total_items := detailed_conv.transcript.length
            user_messages :=
              (detailed_conv.transcript.filter (fun t => t.role = "user")).length
            assistant_messages :=
              (detailed_conv.transcript.filter (fun t => t.role = "assistant")).length }
        error := none }

/-- The degraded record emitted when the detail fetch (or the enrichment) for
one session raises with message `msg`. -/
def degradedConvRecord (conversation : ConvListItem) (msg : String) : ConvRecord :=
  { type := "conversational_ai"
    id := conversation.conversation_id
    agent_id := conversation.agent_id
    timestamp := conversation.start_time_unix_secs
    timestamp_ms := conversation.start_time_unix_secs * 1000
    formatted_time := format_timestamp (conversation.start_time_unix_secs * 1000)
    credits_used := 0
    duration_secs := conversation.call_duration_secs
    status := conversation.status
    error := some ("Could not fetch detailed data: " ++ msg) }

/-- Process one listed conversation: detail fetch plus enrichment, falling
back to the degraded record on failure (the inner `try`/`except`). -/
def processConversation (fetchDetail : String → Except String DetailedConv)
    (conversation : ConvListItem) : ConvRecord :=
  match fetchDetail conversation.conversation_id with
  | Except.error msg => degradedConvRecord conversation msg
  | Except.ok detailed_conv =>
    match enrichConversation conversation detailed_conv with
    | Except.error msg => degradedConvRecord conversation msg
    | Except.ok record => record

/-- One `conversations.list` response page; `cursor = none` (or an empty
string, which is falsy) means no further pages. -/
structure ConvPage where
  conversations : List ConvListItem := []
  cursor : Option String := none
  deriving DecidableEq, Repr

/-- The outer cursor loop of `get_conversation_history`.  `none` signals an
exception raised by a page fetch, which the top-level `except` of the original
converts into an empty overall result (discarding the accumulator). -/
def convGo (fetchDetail : String → Except String DetailedConv)
    (acc : List ConvRecord) :
    List (Except String ConvPage) → Option (List ConvRecord)
  | [] => some acc
  | Except.error _ :: _ => none
  | Except.ok page :: rest =>
    if page.conversations.isEmpty then some acc
    else
      match page.cursor with
      | none => some (acc ++ page.conversations.map (processConversation fetchDetail))
      | some c =>
        if c = "" then some (acc ++ page.conversations.map (processConversation fetchDetail))
        else convGo fetchDetail
          (acc ++ page.conversations.map (processConversation fetchDetail)) rest

/-- `get_conversation_history`: fetch and enrich all conversational-AI
sessions.  `start_ms`/`end_ms` are converted to seconds and applied as a
server-side filter, i.e. they constrain which pages the modelled source
yields; a page-fetch exception makes the whole function return `[]`. -/
def get_conversation_history (fetchDetail : String → Except String DetailedConv)
    (start_ms end_ms : Int) (pages : List (Except String ConvPage)) :
    List ConvRecord :=
  let _start_unix_secs := start_ms.fdiv 1000
  let _end_unix_secs := end_ms.fdiv 1000
  match convGo fetchDetail [] pages with
  | some records => records
  | none => []

/-! ## Aggregator (`summarize_usage`) -/

/-- A duck-typed call record as consumed by the aggregator.  Every field is
optional because the original reads a plain dictionary: `call.get(k, d)`
defaults, while `call[k]` raises `KeyError` when the key is absent. -/
structure CallDict where
  type : Option String := none
  credits_used : Option Int := none
  source : Option String := none
  voice_name : Option String := none
  formatted_time : Option String := none
  deriving DecidableEq, Repr

/-- A `{count, credits}` group entry of a breakdown mapping. -/
structure GroupStat where
  count : Nat := 0
  credits : Int := 0
  deriving DecidableEq, Repr

/-- The `time_range` component of the summary. -/
structure TimeRange where
  earliest_call : Option String := none
  latest_call : Option String := none
  deriving DecidableEq, Repr

/-- The summary dictionary returned by `summarize_usage`.  The breakdown
dictionaries are insertion-ordered key/value lists, matching Python `dict`
semantics. -/
structure UsageSummary where
  total_api_calls : Nat := 0
  total_credits_used : Int := 0
  breakdown_by_type : List (String × GroupStat) := []
  breakdown_by_source : List (String × GroupStat) := []
  breakdown_by_voice : List (String × GroupStat) := []
  time_range : TimeRange := {}
  deriving DecidableEq, Repr

/-- The `if key not in d: d[key] = {0, 0}` initialisation followed by the two
`+=` updates: bump the entry at `key`, appending a fresh one at the end when
absent (Python dicts preserve insertion order). -/
def bumpStat : List (String × GroupStat) → String → Int → List (String × GroupStat)
  | [], key, credits => [(key, { count := 1, credits := credits })]
  | (k, g) :: rest, key, credits =>
    if k = key then (k, { count := g.count + 1, credits := g.credits + credits }) :: rest
    else (k, g) :: bumpStat rest key credits

/-- Lookup in an insertion-ordered breakdown mapping. -/
def findStat (key : String) : List (String × GroupStat) → Option GroupStat
  | [] => none
  | (k, g) :: rest => if k = key then some g else findStat key rest

/-- The `by_type` loop: groups every record by `call["type"]`, raising
`KeyError` when the key is absent. -/
def buildByType : List CallDict → List (String × GroupStat) →
    Except String (List (String × GroupStat))
  | [], acc => Except.ok acc
  | call :: rest, acc =>
    match call.type with
    | none => Except.error "KeyError: type"
    | some call_type =>
      buildByType rest (bumpStat acc call_type (call.credits_used.getD 0))

/-- The `by_source` loop: restricted to speech-generation records whose
`source` is truthy (present and non-empty). -/
def buildBySource : List CallDict → List (String × GroupStat) →
    Except String (List (String × GroupStat))
  | [], acc => Except.ok acc
  | call :: rest, acc =>
    match call.type with
    | none => Except.error "KeyError: type"
    | some call_type =>
      if call_type = "speech_generation" then
        match call.source with
        | some s =>
          if s = "" then buildBySource rest acc
          else buildBySource rest (bumpStat acc s (call.credits_used.getD 0))
        | none => buildBySource rest acc
      else buildBySource rest acc

/-- The `by_voice` loop: restricted to speech-generation records whose
`voice_name` is truthy. -/
def buildByVoice : List CallDict → List (String × GroupStat) →
    Except String (List (String × GroupStat))
  | [], acc => Except.ok acc
  | call :: rest, acc =>
    match call.type with
    | none => Except.error "KeyError: type"
    | some call_type =>
      if call_type = "speech_generation" then
        match call.voice_name with
        | some v =>
          if v = "" then buildByVoice rest acc
          else buildByVoice rest (bumpStat acc v (call.credits_used.getD 0))
        | none => buildByVoice rest acc
      else buildByVoice rest acc

/-- Extract `call["formatted_time"]` from every record, raising `KeyError` at
the first record lacking it (the generator driving `min`/`max`). -/
def getFormattedTimes : List CallDict → Except String (List String)
  | [] => Except.ok []
  | call :: rest =>
    match call.formatted_time with
    | none => Except.error "KeyError: formatted_time"
    | some f =>
      match getFormattedTimes rest with
      | Except.error e => Except.error e
      | Except.ok fs => Except.ok (f :: fs)

/-- Python `min` over strings: keep the current result unless the next
element is strictly smaller. -/
def pyMinFold (a b : String) : String := if b < a then b else a

/-- Python `max` over strings. -/
def pyMaxFold (a b : String) : String := if a < b then b else a

/-- `min(...)` over a list of strings, `none` on the empty list. -/
def pyMin : List String → Option String
  | [] => none
  | x :: xs => some (xs.foldl pyMinFold x)

/-- `max(...)` over a list of strings, `none` on the empty list. -/
def pyMax : List String → Option String
  | [] => none
  | x :: xs => some (xs.foldl pyMaxFold x)

/-- `summarize_usage`: merge the chronologically sorted call records into the
usage summary.  Partial dictionary reads surface as `Except.error`, exactly
where the original raises `KeyError`. -/
def summarize_usage (all_calls : List CallDict) : Except String UsageSummary :=
  let total_credits := (all_calls.map (fun call => call.credits_used.getD 0)).sum
  match buildByType all_calls [] with
  | Except.error e => Except.error e
  | Except.ok by_type =>
    match buildBySource all_calls [] with
    | Except.error e => Except.error e
    | Except.ok by_source =>
      match buildByVoice all_calls [] with
      | Except.error e => Except.error e
      | Except.ok by_voice =>
        if all_calls.isEmpty then
          Except.ok
            { total_api_calls := all_calls.length
              total_credits_used := total_credits
              breakdown_by_type := by_type
              breakdown_by_source := by_source
              breakdown_by_voice := by_voice
              time_range := { earliest_call := none, latest_call := none } }
        else
          match getFormattedTimes all_calls with
          | Except.error e => Except.error e
          | Except.ok fs =>
            Except.ok
              { total_api_calls := all_calls.length
                total_credits_used := total_credits
                breakdown_by_type := by_type
                breakdown_by_source := by_source
                breakdown_by_voice := by_voice
                time_range := { earliest_call := pyMin fs, latest_call := pyMax fs } }

/-! ## Exit-code logic of `main` -/

/-- The decision logic of `main` that determines the process exit code:
missing or empty credential (`if not api_key`), invalid window after
normalization (`start_ms >= end_ms`), or failure to construct the client each
exit with code `1`; otherwise the run completes and exits `0`.  The report
assembly and file/console output carry no further exit paths. -/
def mainExitCode (api_key : Option String) (start_timestamp end_timestamp : Int)
    (clientOk : Bool) : Nat :=
  match api_key with
  | none => 1
  | some key =>
    if key = "" then 1
    else
      let start_ms := normalize_timestamp start_timestamp
      let end_ms := normalize_timestamp end_timestamp
      if start_ms ≥ end_ms then 1
      else if clientOk then 0
      else 1

/-! ## Helper lemmas: speech fetcher -/

lemma speechScan_mem (start_ms end_ms : Int) (P : SpeechRecord → Prop)
    (hP : ∀ item f t, start_ms ≤ item.date_unix * 1000 → item.date_unix * 1000 ≤ end_ms →
      item.charChange = some (f, t) → P (mkSpeechRecord item f t)) :
    ∀ (items : List SpeechItem) (acc : List SpeechRecord),
      (∀ r ∈ acc, P r) → ∀ r ∈ (speechScan start_ms end_ms acc items).1, P r := by
  intro items
  induction items with
  | nil =>
    intro acc hacc r hr
    simp only [speechScan] at hr
    exact hacc r hr
  | cons item rest ih =>
    intro acc hacc r hr
    simp only [speechScan] at hr
    by_cases hw : start_ms ≤ item.date_unix * 1000 ∧ item.date_unix * 1000 ≤ end_ms
    · simp only [if_pos hw] at hr
      cases hcc : item.charChange with
      | none => simp only [hcc] at hr; exact hacc r hr
      | some ft =>
        obtain ⟨f, t⟩ := ft
        simp only [hcc] at hr
        refine ih _ ?_ r hr
        intro r' hr'
        rcases List.mem_append.mp hr' with h | h
        · exact hacc r' h
        · rcases List.mem_singleton.mp h with rfl
          exact hP item f t hw.1 hw.2 hcc
    · simp only [if_neg hw] at hr
      by_cases hlt : item.date_unix * 1000 < start_ms
      · simp only [if_pos hlt] at hr; exact hacc r hr
      · simp only [if_neg hlt] at hr; exact ih acc hacc r hr

lemma speechGo_mem (start_ms end_ms : Int) (P : SpeechRecord → Prop)
    (hP : ∀ item f t, start_ms ≤ item.date_unix * 1000 → item.date_unix * 1000 ≤ end_ms →
      item.charChange = some (f, t) → P (mkSpeechRecord item f t)) :
    ∀ (pages : List (Except String SpeechPage)) (acc : List SpeechRecord),
      (∀ r ∈ acc, P r) → ∀ r ∈ speechGo start_ms end_ms acc pages, P r := by
  intro pages
  induction pages with
  | nil =>
    intro acc hacc r hr
    simp only [speechGo] at hr
    exact hacc r hr
  | cons pg rest ih =>
    intro acc hacc r hr
    cases pg with
    | error e =>
      simp only [speechGo] at hr
      exact hacc r hr
    | ok page =>
      simp only [speechGo] at hr
      split at hr
      · exact hacc r hr
      · split at hr
        · exact speechScan_mem start_ms end_ms P hP page.history acc hacc r hr
        · split at hr
          · exact ih _ (speechScan_mem start_ms end_ms P hP page.history acc hacc) r hr
          · exact speechScan_mem start_ms end_ms P hP page.history acc hacc r hr

lemma get_speech_history_mem (start_ms end_ms : Int) (P : SpeechRecord → Prop)
    (hP : ∀ item f t, start_ms ≤ item.date_unix * 1000 → item.date_unix * 1000 ≤ end_ms →
      item.charChange = some (f, t) → P (mkSpeechRecord item f t))
    (pages : List (Except String SpeechPage)) :
    ∀ r ∈ get_speech_history start_ms end_ms pages, P r :=
  speechGo_mem start_ms end_ms P hP pages [] (by simp)

lemma speech_window_invariant (start_ms end_ms : Int)
    (pages : List (Except String SpeechPage)) :
    ∀ r ∈ get_speech_history start_ms end_ms pages,
      start_ms ≤ r.timestamp_ms ∧ r.timestamp_ms ≤ end_ms := by
  refine get_speech_history_mem start_ms end_ms _ ?_ pages
  intro item f t h1 h2 _
  simpa [mkSpeechRecord] using ⟨h1, h2⟩

lemma speechScan_stop (start_ms end_ms : Int) (x : SpeechItem) (B : List SpeechItem)
    (hx : x.date_unix * 1000 < start_ms) :
    ∀ (A : List SpeechItem) (acc : List SpeechRecord),
      speechScan start_ms end_ms acc (A ++ x :: B) =
        ((speechScan start_ms end_ms acc A).1, true) := by
  intro A
  induction A with
  | nil =>
    intro acc
    have hnw : ¬(start_ms ≤ x.date_unix * 1000 ∧ x.date_unix * 1000 ≤ end_ms) :=
      fun h => absurd h.1 (not_le.mpr hx)
    simp [speechScan, hnw, hx]
  | cons a A ih =>
    intro acc
    simp only [List.cons_append, speechScan]
    by_cases hw : start_ms ≤ a.date_unix * 1000 ∧ a.date_unix * 1000 ≤ end_ms
    · simp only [if_pos hw]
      cases hcc : a.charChange with
      | none => simp
      | some ft =>
        obtain ⟨f, t⟩ := ft
        exact ih _
    · simp only [if_neg hw]
      by_cases hlt : a.date_unix * 1000 < start_ms
      · simp [if_pos hlt]
      · simp only [if_neg hlt]
        exact ih acc

lemma speechGo_one_page (start_ms end_ms : Int) (A : List SpeechItem)
    (acc : List SpeechRecord) :
    speechGo start_ms end_ms acc [Except.ok { history := A, has_more := false }] =
      (speechScan start_ms end_ms acc A).1 := by
  cases A with
  | nil => simp [speechGo, speechScan]
  | cons a A => simp [speechGo, List.isEmpty]

lemma speechGo_congr_tail (start_ms end_ms : Int)
    (post post' : List (Except String SpeechPage))
    (h : ∀ acc, speechGo start_ms end_ms acc post = speechGo start_ms end_ms acc post') :
    ∀ (P1 : List (Except String SpeechPage)) (acc : List SpeechRecord),
      speechGo start_ms end_ms acc (P1 ++ post) =
        speechGo start_ms end_ms acc (P1 ++ post') := by
  intro P1
  induction P1 with
  | nil => intro acc; exact h acc
  | cons pg rest ih =>
    intro acc
    cases pg with
    | error e => simp [speechGo]
    | ok page =>
      simp only [List.cons_append, speechGo]
      split
      · rfl
      · split
        · rfl
        · split
          · exact ih _
          · rfl

/-- C1: if the page source ever yields a record strictly older than
`start_ms`, the fetch stops there: the result is the same as fetching from the
source truncated just before that record (everything after it, in the same
page or in later pages, is never consumed), and the older record itself is not
included — every returned record is strictly newer.  This holds for any
source, in particular for one with strictly decreasing timestamps. -/
theorem speech_history_early_stop (start_ms end_ms : Int)
    (P1 P2 : List (Except String SpeechPage)) (A B : List SpeechItem)
    (x : SpeechItem) (hm : Bool)
    (hx : x.date_unix * 1000 < start_ms) :
    get_speech_history start_ms end_ms
        (P1 ++ Except.ok { history := A ++ x :: B, has_more := hm } :: P2) =
      get_speech_history start_ms end_ms
        (P1 ++ [Except.ok { history := A, has_more := false }])
    ∧ ∀ r ∈ get_speech_history start_ms end_ms
        (P1 ++ Except.ok { history := A ++ x :: B, has_more := hm } :: P2),
        x.date_unix * 1000 < r.timestamp_ms := by
  have hpost : ∀ acc,
      speechGo start_ms end_ms acc
          (Except.ok { history := A ++ x :: B, has_more := hm } :: P2) =
        speechGo start_ms end_ms acc [Except.ok { history := A, has_more := false }] := by
    intro acc
    rw [speechGo_one_page]
    simp only [speechGo]
    have hne : (A ++ x :: B).isEmpty = false := by
      cases A <;> simp [List.isEmpty]
    simp only [hne]
    rw [speechScan_stop start_ms end_ms x B hx A acc]
    simp
  constructor
  · exact speechGo_congr_tail start_ms end_ms _ _ hpost P1 []
  · intro r hr
    have h := speech_window_invariant start_ms end_ms _ r hr
    exact lt_of_lt_of_le hx h.1

/-- C8: every record returned by the speech-history fetcher has
`timestamp_ms` inside the inclusive window `[start_ms, end_ms]`; moreover,
for a valid window, an item strictly newer than `end_ms` is merely skipped —
the per-page scan continues unchanged past it — while an item strictly older
than `start_ms` terminates the scan with the records accumulated so far. -/
theorem speech_history_window (start_ms end_ms : Int)
    (pages : List (Except String SpeechPage)) :
    (∀ r ∈ get_speech_history start_ms end_ms pages,
        start_ms ≤ r.timestamp_ms ∧ r.timestamp_ms ≤ end_ms)
    ∧ (∀ (item : SpeechItem) (items : List SpeechItem) (acc : List SpeechRecord),
        start_ms ≤ end_ms → end_ms < item.date_unix * 1000 →
        speechScan start_ms end_ms acc (item :: items) =
          speechScan start_ms end_ms acc items)
    ∧ ∀ (item : SpeechItem) (items : List SpeechItem) (acc : List SpeechRecord),
        item.date_unix * 1000 < start_ms →
        speechScan start_ms end_ms acc (item :: items) = (acc, true) := by
  refine ⟨speech_window_invariant start_ms end_ms pages, ?_, ?_⟩
  · intro item items acc hse hgt
    have hnw : ¬(start_ms ≤ item.date_unix * 1000 ∧ item.date_unix * 1000 ≤ end_ms) :=
      fun h => absurd h.2 (not_le.mpr hgt)
    have hnl : ¬(item.date_unix * 1000 < start_ms) :=
      not_lt.mpr (le_trans hse (le_of_lt hgt))
    simp [speechScan, hnw, hnl]
  · intro item items acc hlt
    have hnw : ¬(start_ms ≤ item.date_unix * 1000 ∧ item.date_unix * 1000 ≤ end_ms) :=
      fun h => absurd h.1 (not_le.mpr hlt)
    simp [speechScan, hnw, hlt]

/-- C3: `normalize_timestamp` multiplies by 1000 below the year-3000
threshold and passes through at or above it; consequently it is idempotent on
values at or above the threshold. -/
theorem normalize_timestamp_spec (t : Int) :
    (t < 32503680000 → normalize_timestamp t = t * 1000)
    ∧ (32503680000 ≤ t → normalize_timestamp t = t)
    ∧ (32503680000 ≤ t →
        normalize_timestamp (normalize_timestamp t) = normalize_timestamp t) := by
  refine ⟨fun h => by simp [normalize_timestamp, h], fun h => ?_, fun h => ?_⟩
  · simp [normalize_timestamp, not_lt.mpr h]
  · simp [normalize_timestamp, not_lt.mpr h]

/-- Witness for C3 at concrete inputs on both sides of the threshold. -/
theorem normalize_timestamp_spec_witness :
    normalize_timestamp 1640995200 = 1640995200 * 1000
    ∧ normalize_timestamp 1640995200000 = 1640995200000
    ∧ normalize_timestamp (normalize_timestamp 1640995200000) =
        normalize_timestamp 1640995200000 :=
  ⟨(normalize_timestamp_spec 1640995200).1 (by decide),
   (normalize_timestamp_spec 1640995200000).2.1 (by decide),
   (normalize_timestamp_spec 1640995200000).2.2 (by decide)⟩

/-- C6 counterexample: two concrete runs exit with code 1 although the
claim's condition does not hold at them.  First, with the credential present
and the client healthy, raw arguments `32503679999 < 32503680000` still exit
1, because the window check compares the timestamps after normalization (the
first is scaled to milliseconds, the second is not).  Second, a credential
that is set but empty also exits 1, although the variable is not unset. -/
theorem mainExitCode_counterexample :
    (mainExitCode (some "key") 32503679999 32503680000 true = 1
      ∧ (32503679999 : Int) < 32503680000
      ∧ some "key" ≠ (none : Option String))
    ∧ (mainExitCode (some "") 1000 2000 true = 1
      ∧ (1000 : Int) < 2000
      ∧ some "" ≠ (none : Option String)) := by
  refine ⟨⟨by decide, by decide, by decide⟩, ⟨by decide, by decide, by decide⟩⟩

/-- C6 (amended): the program exits with code 1 exactly when the credential
is unset or empty, when the window is invalid after timestamp normalization
(`normalize(start) >= normalize(end)`), or when constructing the client
fails; it exits 0 in every other case. -/
theorem mainExitCode_spec (api_key : Option String) (s e : Int) (clientOk : Bool) :
    (mainExitCode api_key s e clientOk = 1 ↔
      (api_key = none ∨ api_key = some "" ∨
        normalize_timestamp s ≥ normalize_timestamp e ∨ clientOk = false))
    ∧ (mainExitCode api_key s e clientOk = 0 ↔
      ¬(api_key = none ∨ api_key = some "" ∨
        normalize_timestamp s ≥ normalize_timestamp e ∨ clientOk = false)) := by
  cases api_key with
  | none => simp [mainExitCode]
  | some k =>
    by_cases hk : k = "" <;>
      by_cases hw : normalize_timestamp s ≥ normalize_timestamp e <;>
        cases clientOk <;>
          simp [mainExitCode, hk, hw]

/-! ## Helper lemmas: conversation fetcher -/

lemma foldl_add_map_sum {α : Type} (f : α → Int) :
    ∀ (l : List α) (a : Int),
      l.foldl (fun acc x => acc + f x) a = a + (l.map f).sum := by
  intro l
  induction l with
  | nil => intro a; simp
  | cons x xs ih =>
    intro a
    simp only [List.foldl_cons, List.map_cons, List.sum_cons, ih]
    ring

lemma llmTokensOf_eq (t : TranscriptItem) :
    llmTokensOf t = (t.llm_usage.bind LlmUsage.total_tokens).getD 0 := by
  cases hu : t.llm_usage with
  | none => simp [llmTokensOf, hu]
  | some u =>
    cases hn : u.total_tokens with
    | none => simp [llmTokensOf, hu, hn, Option.bind]
    | some n => simp [llmTokensOf, hu, hn, Option.bind]

lemma tokens_map_eq_filterMap :
    ∀ ts : List TranscriptItem,
      (ts.map llmTokensOf).sum =
        (ts.filterMap (fun t => t.llm_usage.bind LlmUsage.total_tokens)).sum := by
  intro ts
  induction ts with
  | nil => simp
  | cons t rest ih =>
    simp only [List.map_cons, List.sum_cons, llmTokensOf_eq]
    cases hb : t.llm_usage.bind LlmUsage.total_tokens with
    | none => simp [List.filterMap_cons, hb, ih]
    | some n => simp [List.filterMap_cons, hb, ih]

lemma processConversation_ts (fetchDetail : String → Except String DetailedConv)
    (conversation : ConvListItem) :
    (processConversation fetchDetail conversation).timestamp_ms =
        (processConversation fetchDetail conversation).timestamp * 1000
    ∧ (processConversation fetchDetail conversation).formatted_time =
        format_timestamp (processConversation fetchDetail conversation).timestamp_ms := by
  unfold processConversation
  cases fetchDetail conversation.conversation_id with
  | error msg => simp [degradedConvRecord]
  | ok d =>
    cases hmd : d.metadata with
    | none => simp [enrichConversation, hmd, degradedConvRecord]
    | some md => simp [enrichConversation, hmd]

lemma convGo_mem (P : ConvRecord → Prop)
    (fetchDetail : String → Except String DetailedConv)
    (hP : ∀ conversation, P (processConversation fetchDetail conversation)) :
    ∀ (pages : List (Except String ConvPage)) (acc res : List ConvRecord),
      (∀ r ∈ acc, P r) → convGo fetchDetail acc pages = some res →
      ∀ r ∈ res, P r := by
  intro pages
  induction pages with
  | nil =>
    intro acc res hacc heq r hr
    simp only [convGo, Option.some.injEq] at heq
    subst heq
    exact hacc r hr
  | cons pg rest ih =>
    intro acc res hacc heq r hr
    cases pg with
    | error e => simp [convGo] at heq
    | ok page =>
      have hext : ∀ r' ∈ acc ++ page.conversations.map (processConversation fetchDetail), P r' := by
        intro r' hr'
        rcases List.mem_append.mp hr' with h | h
        · exact hacc r' h
        · obtain ⟨c, _, rfl⟩ := List.mem_map.mp h
          exact hP c
      simp only [convGo] at heq
      split at heq
      · cases heq; exact hacc r hr
      · split at heq
        · cases heq; exact hext r hr
        · split at heq
          · cases heq; exact hext r hr
          · exact ih _ _ hext heq r hr

lemma get_conversation_history_mem (P : ConvRecord → Prop)
    (fetchDetail : String → Except String DetailedConv)
    (hP : ∀ conversation, P (processConversation fetchDetail conversation))
    (start_ms end_ms : Int) (pages : List (Except String ConvPage)) :
    ∀ r ∈ get_conversation_history fetchDetail start_ms end_ms pages, P r := by
  intro r hr
  unfold get_conversation_history at hr
  cases heq : convGo fetchDetail [] pages with
  | none => rw [heq] at hr; simp at hr
  | some res =>
    rw [heq] at hr
    exact convGo_mem P fetchDetail hP pages [] res (by simp) heq r hr

/-- C9: every usage record constructed by either fetcher — speech-generation,
fully enriched conversational, or degraded conversational — satisfies
`timestamp_ms = timestamp * 1000` and
`formatted_time = format_timestamp timestamp_ms`. -/
theorem records_timestamp_consistent :
    (∀ (start_ms end_ms : Int) (pages : List (Except String SpeechPage)),
      ∀ r ∈ get_speech_history start_ms end_ms pages,
        r.timestamp_ms = r.timestamp * 1000
        ∧ r.formatted_time = format_timestamp r.timestamp_ms)
    ∧ ∀ (fetchDetail : String → Except String DetailedConv)
        (start_ms end_ms : Int) (pages : List (Except String ConvPage)),
      ∀ r ∈ get_conversation_history fetchDetail start_ms end_ms pages,
        r.timestamp_ms = r.timestamp * 1000
        ∧ r.formatted_time = format_timestamp r.timestamp_ms := by
  constructor
  · intro start_ms end_ms pages
    refine get_speech_history_mem start_ms end_ms _ ?_ pages
    intro item f t _ _ _
    simp [mkSpeechRecord]
  · intro fetchDetail start_ms end_ms pages
    exact get_conversation_history_mem _ fetchDetail
      (fun conversation => processConversation_ts fetchDetail conversation)
      start_ms end_ms pages

/-- C4: for a session whose detail fetch and enrichment succeed, the emitted
record's `credits_used` is the metadata cost (0 when the metadata or its cost
field is absent) and `total_llm_tokens` is the sum of `total_tokens` over
exactly the transcript entries exposing a token-usage sub-field with that
attribute, the others contributing 0. -/
theorem conversation_enrichment_totals
    (fetchDetail : String → Except String DetailedConv)
    (conversation : ConvListItem) (detailed_conv : DetailedConv) (r : ConvRecord)
    (hfetch : fetchDetail conversation.conversation_id = Except.ok detailed_conv)
    (henrich : enrichConversation conversation detailed_conv = Except.ok r) :
    processConversation fetchDetail conversation = r
    ∧ r.credits_used =
        (match detailed_conv.metadata with
         | none => 0
         | some md => md.cost.getD 0)
    ∧ r.total_llm_tokens =
        some ((detailed_conv.transcript.filterMap
          (fun t => t.llm_usage.bind LlmUsage.total_tokens)).sum) := by
  refine ⟨by simp [processConversation, hfetch, henrich], ?_, ?_⟩
  · cases hmd : detailed_conv.metadata with
    | none => rw [enrichConversation, hmd] at henrich; cases henrich
    | some md =>
      rw [enrichConversation, hmd] at henrich
      cases henrich
      simp
  · cases hmd : detailed_conv.metadata with
    | none => rw [enrichConversation, hmd] at henrich; cases henrich
    | some md =>
      rw [enrichConversation, hmd] at henrich
      cases henrich
      simp only [foldl_add_map_sum llmTokensOf detailed_conv.transcript 0,
        zero_add, tokens_map_eq_filterMap]

/-- C5: with three listed conversations across the paginated source, a detail
fetch failing for exactly the second (and succeeding, with metadata present,
for the other two), the fetcher returns exactly three records in listing
order — one degraded record carrying an error field, between two fully
enriched ones — and the pagination loop is not aborted by the failure. -/
theorem conversation_failure_isolated
    (fetchDetail : String → Except String DetailedConv) (start_ms end_ms : Int)
    (c1 c2 c3 : ConvListItem) (d1 d3 : DetailedConv) (m1 m3 : ConvMetadata)
    (msg : String)
    (h1 : fetchDetail c1.conversation_id = Except.ok d1)
    (hm1 : d1.metadata = some m1)
    (h2 : fetchDetail c2.conversation_id = Except.error msg)
    (h3 : fetchDetail c3.conversation_id = Except.ok d3)
    (hm3 : d3.metadata = some m3) :
    (get_conversation_history fetchDetail start_ms end_ms
        [Except.ok { conversations := [c1, c2], cursor := some "next" },
         Except.ok { conversations := [c3], cursor := none }]).length = 3
    ∧ (get_conversation_history fetchDetail start_ms end_ms
        [Except.ok { conversations := [c1, c2], cursor := some "next" },
         Except.ok { conversations := [c3], cursor := none }]).map
          (fun r => (r.id, r.error.isSome)) =
        [(c1.conversation_id, false), (c2.conversation_id, true),
         (c3.conversation_id, false)] := by
  have hrun : get_conversation_history fetchDetail start_ms end_ms
      [Except.ok { conversations := [c1, c2], cursor := some "next" },
       Except.ok { conversations := [c3], cursor := none }] =
      [processConversation fetchDetail c1, processConversation fetchDetail c2,
       processConversation fetchDetail c3] := by
    simp [get_conversation_history, convGo, List.isEmpty]
  rw [hrun]
  refine ⟨rfl, ?_⟩
  simp [processConversation, h1, h2, h3, enrichConversation, hm1, hm3,
    degradedConvRecord]

/-! ## Helper lemmas: aggregator -/

/-- Combine an existing optional group entry with `n` extra calls worth `c`
credits. -/
def statPlus : Option GroupStat → Nat → Int → GroupStat
  | none, n, c => { count := n, credits := c }
  | some g, n, c => { count := g.count + n, credits := g.credits + c }

lemma statPlus_statPlus (o : Option GroupStat) (n1 n2 : Nat) (c1 c2 : Int) :
    statPlus (some (statPlus o n1 c1)) n2 c2 = statPlus o (n1 + n2) (c1 + c2) := by
  cases o with
  | none => simp [statPlus]
  | some g => simp [statPlus, GroupStat.mk.injEq, Nat.add_assoc, add_assoc]

lemma findStat_bumpStat_self :
    ∀ (m : List (String × GroupStat)) (k : String) (c : Int),
      findStat k (bumpStat m k c) = some (statPlus (findStat k m) 1 c) := by
  intro m k c
  induction m with
  | nil => simp [bumpStat, findStat, statPlus]
  | cons p rest ih =>
    obtain ⟨k0, g⟩ := p
    by_cases hk : k0 = k
    · subst hk; simp [bumpStat, findStat, statPlus]
    · simp [bumpStat, findStat, hk, ih]

lemma findStat_bumpStat_other (k key : String) (h : k ≠ key) :
    ∀ (m : List (String × GroupStat)) (c : Int),
      findStat k (bumpStat m key c) = findStat k m := by
  intro m c
  have hne : ∀ k0 : String, k0 = key → ¬k0 = k := fun _ he1 he2 => h (he2.symm.trans he1)
  induction m with
  | nil => simp [bumpStat, findStat, hne key rfl]
  | cons p rest ih =>
    obtain ⟨k0, g⟩ := p
    by_cases hk : k0 = key
    · subst hk
      simp [bumpStat, findStat, hne k0 rfl]
    · by_cases hk2 : k0 = k
      · subst hk2; simp [bumpStat, findStat, hk]
      · simp [bumpStat, findStat, hk, hk2, ih]

def statCountSum (m : List (String × GroupStat)) : Nat :=
  (m.map (fun p => p.2.count)).sum

def statCreditSum (m : List (String × GroupStat)) : Int :=
  (m.map (fun p => p.2.credits)).sum

lemma statCountSum_bumpStat :
    ∀ (m : List (String × GroupStat)) (k : String) (c : Int),
      statCountSum (bumpStat m k c) = statCountSum m + 1 := by
  intro m k c
  induction m with
  | nil => simp [bumpStat, statCountSum]
  | cons p rest ih =>
    obtain ⟨k0, g⟩ := p
    by_cases hk : k0 = k
    · subst hk; simp [bumpStat, statCountSum]; omega
    · simp only [bumpStat, if_neg hk, statCountSum, List.map_cons, List.sum_cons]
      have := ih
      simp only [statCountSum] at this
      omega

lemma statCreditSum_bumpStat :
    ∀ (m : List (String × GroupStat)) (k : String) (c : Int),
      statCreditSum (bumpStat m k c) = statCreditSum m + c := by
  intro m k c
  induction m with
  | nil => simp [bumpStat, statCreditSum]
  | cons p rest ih =>
    obtain ⟨k0, g⟩ := p
    by_cases hk : k0 = k
    · subst hk; simp [bumpStat, statCreditSum]; ring
    · simp only [bumpStat, if_neg hk, statCreditSum, List.map_cons, List.sum_cons]
      have := ih
      simp only [statCreditSum] at this
      rw [this]; ring

lemma buildByType_find :
    ∀ (calls : List CallDict) (m mOut : List (String × GroupStat)),
      buildByType calls m = Except.ok mOut → ∀ t,
        findStat t mOut =
          if (calls.filter (fun c => c.type == some t)).isEmpty then findStat t m
          else some (statPlus (findStat t m)
            (calls.filter (fun c => c.type == some t)).length
            ((calls.filter (fun c => c.type == some t)).map
              (fun c => c.credits_used.getD 0)).sum) := by
  intro calls
  induction calls with
  | nil =>
    intro m mOut h t
    simp only [buildByType, Except.ok.injEq] at h
    subst h
    simp
  | cons c rest ih =>
    intro m mOut h t
    cases hct : c.type with
    | none =>
      simp only [buildByType, hct] at h
      exact Except.noConfusion h
    | some tc =>
      simp only [buildByType, hct] at h
      have hrec := ih _ _ h t
      by_cases htc : tc = t
      · subst htc
        rw [hrec, findStat_bumpStat_self]
        have hfc : (c :: rest).filter (fun c => c.type == some tc) =
            c :: rest.filter (fun c => c.type == some tc) := by
          simp [List.filter_cons, hct]
        rw [hfc]
        by_cases hre : (rest.filter (fun c => c.type == some tc)).isEmpty
        · simp only [if_pos hre, List.isEmpty_iff] at *
          simp [hre, statPlus, List.isEmpty_iff]
        · have hne : ((c :: rest.filter (fun c => c.type == some tc)).isEmpty) = false := by
            simp
          simp only [if_neg hre, hne, Bool.false_eq_true, if_false, statPlus_statPlus]
          rw [List.length_cons, List.map_cons, List.sum_cons]
          congr 1
          cases hfm : findStat tc m <;>
            simp [statPlus, GroupStat.mk.injEq, Nat.add_comm, add_comm, add_assoc, add_left_comm]
      · have hne : t ≠ tc := fun he => htc he.symm
        rw [hrec, findStat_bumpStat_other t tc hne]
        have hfc : (c :: rest).filter (fun c => c.type == some t) =
            rest.filter (fun c => c.type == some t) := by
          simp [List.filter_cons, hct, htc]
        rw [hfc]

lemma buildByType_sums :
    ∀ (calls : List CallDict) (m mOut : List (String × GroupStat)),
      buildByType calls m = Except.ok mOut →
      statCountSum mOut = statCountSum m + calls.length
      ∧ statCreditSum mOut = statCreditSum m + (calls.map (fun c => c.credits_used.getD 0)).sum := by
  intro calls
  induction calls with
  | nil =>
    intro m mOut h
    simp only [buildByType, Except.ok.injEq] at h
    subst h
    simp
  | cons c rest ih =>
    intro m mOut h
    cases hct : c.type with
    | none =>
      simp only [buildByType, hct] at h
      exact Except.noConfusion h
    | some tc =>
      simp only [buildByType, hct] at h
      obtain ⟨hc, hs⟩ := ih _ _ h
      rw [statCountSum_bumpStat] at hc
      rw [statCreditSum_bumpStat] at hs
      constructor
      · rw [hc, List.length_cons]; omega
      · rw [hs, List.map_cons, List.sum_cons]; ring

lemma buildBySource_find :
    ∀ (calls : List CallDict) (m mOut : List (String × GroupStat)),
      buildBySource calls m = Except.ok mOut → ∀ src, src ≠ "" →
        findStat src mOut =
          if (calls.filter (fun c =>
              c.type == some "speech_generation" && c.source == some src)).isEmpty
          then findStat src m
          else some (statPlus (findStat src m)
            (calls.filter (fun c =>
              c.type == some "speech_generation" && c.source == some src)).length
            ((calls.filter (fun c =>
              c.type == some "speech_generation" && c.source == some src)).map
              (fun c => c.credits_used.getD 0)).sum) := by
  intro calls
  induction calls with
  | nil =>
    intro m mOut h src hsrc
    simp only [buildBySource, Except.ok.injEq] at h
    subst h
    simp
  | cons c rest ih =>
    intro m mOut h src hsrc
    cases hct : c.type with
    | none =>
      simp only [buildBySource, hct] at h
      exact Except.noConfusion h
    | some tc =>
      simp only [buildBySource, hct] at h
      by_cases htc : tc = "speech_generation"
      · subst htc
        rw [if_pos rfl] at h
        cases hcs : c.source with
        | none =>
          rw [hcs] at h
          have hrec := ih _ _ h src hsrc
          rw [hrec]
          have hfc : (c :: rest).filter (fun c =>
              c.type == some "speech_generation" && c.source == some src) =
              rest.filter (fun c =>
                c.type == some "speech_generation" && c.source == some src) := by
            simp [List.filter_cons, hct, hcs]
          rw [hfc]
        | some s =>
          simp only [hcs] at h
          by_cases hs : s = ""
          · rw [if_pos hs] at h
            have hrec := ih _ _ h src hsrc
            rw [hrec]
            have hsne : ¬(s = src) := fun he => hsrc (he.symm.trans hs)
            have hfc : (c :: rest).filter (fun c =>
                c.type == some "speech_generation" && c.source == some src) =
                rest.filter (fun c =>
                  c.type == some "speech_generation" && c.source == some src) := by
              simp [List.filter_cons, hct, hcs, hsne]
            rw [hfc]
          · rw [if_neg hs] at h
            have hrec := ih _ _ h src hsrc
            by_cases hseq : s = src
            · subst hseq
              rw [hrec, findStat_bumpStat_self]
              have hfc : (c :: rest).filter (fun c =>
                  c.type == some "speech_generation" && c.source == some s) =
                  c :: rest.filter (fun c =>
                    c.type == some "speech_generation" && c.source == some s) := by
                simp [List.filter_cons, hct, hcs]
              rw [hfc]
              by_cases hre : (rest.filter (fun c =>
                  c.type == some "speech_generation" && c.source == some s)).isEmpty
              · simp only [if_pos hre, List.isEmpty_iff] at *
                simp [hre, statPlus, List.isEmpty_iff]
              · have hne2 : ((c :: rest.filter (fun c =>
                    c.type == some "speech_generation" && c.source == some s)).isEmpty) = false := by
                  simp
                simp only [if_neg hre, hne2, Bool.false_eq_true, if_false, statPlus_statPlus]
                rw [List.length_cons, List.map_cons, List.sum_cons]
                congr 1
                cases hfm : findStat s m <;>
                  simp [statPlus, GroupStat.mk.injEq, Nat.add_comm, add_comm, add_assoc,
                    add_left_comm]
            · have hne3 : src ≠ s := fun he => hseq he.symm
              rw [hrec, findStat_bumpStat_other src s hne3]
              have hfc : (c :: rest).filter (fun c =>
                  c.type == some "speech_generation" && c.source == some src) =
                  rest.filter (fun c =>
                    c.type == some "speech_generation" && c.source == some src) := by
                simp [List.filter_cons, hct, hcs, hseq]
              rw [hfc]
      · rw [if_neg htc] at h
        have hrec := ih _ _ h src hsrc
        rw [hrec]
        have hfc : (c :: rest).filter (fun c =>
            c.type == some "speech_generation" && c.source == some src) =
            rest.filter (fun c =>
              c.type == some "speech_generation" && c.source == some src) := by
          simp [List.filter_cons, hct, htc]
        rw [hfc]

lemma getFormattedTimes_eq :
    ∀ (calls : List CallDict) (fs : List String),
      getFormattedTimes calls = Except.ok fs →
      fs = calls.filterMap (fun c => c.formatted_time) := by
  intro calls
  induction calls with
  | nil =>
    intro fs h
    simp only [getFormattedTimes, Except.ok.injEq] at h
    subst h
    simp
  | cons c rest ih =>
    intro fs h
    cases hft : c.formatted_time with
    | none =>
      simp only [getFormattedTimes, hft] at h
      exact Except.noConfusion h
    | some f =>
      simp only [getFormattedTimes, hft] at h
      cases hr : getFormattedTimes rest with
      | error e =>
        rw [hr] at h
        exact Except.noConfusion h
      | ok fs0 =>
        rw [hr] at h
        simp only [Except.ok.injEq] at h
        subst h
        simp [List.filterMap_cons, hft, ih fs0 hr]

lemma getFormattedTimes_length :
    ∀ (calls : List CallDict) (fs : List String),
      getFormattedTimes calls = Except.ok fs → fs.length = calls.length := by
  intro calls
  induction calls with
  | nil =>
    intro fs h
    simp only [getFormattedTimes, Except.ok.injEq] at h
    subst h
    rfl
  | cons c rest ih =>
    intro fs h
    cases hft : c.formatted_time with
    | none =>
      simp only [getFormattedTimes, hft] at h
      exact Except.noConfusion h
    | some f =>
      simp only [getFormattedTimes, hft] at h
      cases hr : getFormattedTimes rest with
      | error e =>
        rw [hr] at h
        exact Except.noConfusion h
      | ok fs0 =>
        rw [hr] at h
        simp only [Except.ok.injEq] at h
        subst h
        simp [ih fs0 hr]

lemma foldl_pyMinFold_mem :
    ∀ (xs : List String) (x : String), xs.foldl pyMinFold x ∈ x :: xs := by
  intro xs
  induction xs with
  | nil => intro x; simp
  | cons y ys ih =>
    intro x
    simp only [List.foldl_cons]
    rcases List.mem_cons.mp (ih (pyMinFold x y)) with h1 | h1
    · rw [h1]
      unfold pyMinFold
      split
      · exact List.mem_cons_of_mem _ (List.mem_cons_self _ _)
      · exact List.mem_cons_self _ _
    · exact List.mem_cons_of_mem _ (List.mem_cons_of_mem _ h1)

lemma foldl_pyMinFold_le :
    ∀ (xs : List String) (x : String), ∀ y ∈ x :: xs, xs.foldl pyMinFold x ≤ y := by
  intro xs
  induction xs with
  | nil =>
    intro x y hy
    rcases List.mem_singleton.mp hy with rfl
    exact le_refl y
  | cons z zs ih =>
    intro x y hy
    simp only [List.foldl_cons]
    have hle1 : pyMinFold x z ≤ x := by
      unfold pyMinFold
      split
      · exact le_of_lt (by assumption)
      · exact le_refl x
    have hle2 : pyMinFold x z ≤ z := by
      unfold pyMinFold
      split
      · exact le_refl z
      · exact not_lt.mp (by assumption)
    have hfold : zs.foldl pyMinFold (pyMinFold x z) ≤ pyMinFold x z :=
      ih (pyMinFold x z) _ (List.mem_cons_self _ _)
    rcases List.mem_cons.mp hy with h1 | hy2
    · rw [h1]; exact le_trans hfold hle1
    · rcases List.mem_cons.mp hy2 with h2 | hy3
      · rw [h2]; exact le_trans hfold hle2
      · exact ih (pyMinFold x z) y (List.mem_cons_of_mem _ hy3)

lemma foldl_pyMaxFold_mem :
    ∀ (xs : List String) (x : String), xs.foldl pyMaxFold x ∈ x :: xs := by
  intro xs
  induction xs with
  | nil => intro x; simp
  | cons y ys ih =>
    intro x
    simp only [List.foldl_cons]
    rcases List.mem_cons.mp (ih (pyMaxFold x y)) with h1 | h1
    · rw [h1]
      unfold pyMaxFold
      split
      · exact List.mem_cons_of_mem _ (List.mem_cons_self _ _)
      · exact List.mem_cons_self _ _
    · exact List.mem_cons_of_mem _ (List.mem_cons_of_mem _ h1)

lemma foldl_pyMaxFold_ge :
    ∀ (xs : List String) (x : String), ∀ y ∈ x :: xs, y ≤ xs.foldl pyMaxFold x := by
  intro xs
  induction xs with
  | nil =>
    intro x y hy
    rcases List.mem_singleton.mp hy with rfl
    exact le_refl y
  | cons z zs ih =>
    intro x y hy
    simp only [List.foldl_cons]
    have hle1 : x ≤ pyMaxFold x z := by
      unfold pyMaxFold
      split
      · exact le_of_lt (by assumption)
      · exact le_refl x
    have hle2 : z ≤ pyMaxFold x z := by
      unfold pyMaxFold
      split
      · exact le_refl z
      · exact not_lt.mp (by assumption)
    have hfold : pyMaxFold x z ≤ zs.foldl pyMaxFold (pyMaxFold x z) :=
      ih (pyMaxFold x z) _ (List.mem_cons_self _ _)
    rcases List.mem_cons.mp hy with h1 | hy2
    · rw [h1]; exact le_trans hle1 hfold
    · rcases List.mem_cons.mp hy2 with h2 | hy3
      · rw [h2]; exact le_trans hle2 hfold
      · exact ih (pyMaxFold x z) y (List.mem_cons_of_mem _ hy3)

lemma summarize_usage_ok :
    ∀ (all_calls : List CallDict) (s : UsageSummary),
      summarize_usage all_calls = Except.ok s →
      buildByType all_calls [] = Except.ok s.breakdown_by_type
      ∧ buildBySource all_calls [] = Except.ok s.breakdown_by_source
      ∧ s.total_api_calls = all_calls.length
      ∧ s.total_credits_used = (all_calls.map (fun call => call.credits_used.getD 0)).sum
      ∧ (all_calls = [] →
          s.time_range = { earliest_call := none, latest_call := none })
      ∧ (all_calls ≠ [] → ∃ fs, getFormattedTimes all_calls = Except.ok fs
          ∧ fs ≠ []
          ∧ s.time_range = { earliest_call := pyMin fs, latest_call := pyMax fs }) := by
  intro all_calls s h
  simp only [summarize_usage] at h
  cases h1 : buildByType all_calls [] with
  | error e => simp only [h1] at h; exact Except.noConfusion h
  | ok bt =>
    simp only [h1] at h
    cases h2 : buildBySource all_calls [] with
    | error e => simp only [h2] at h; exact Except.noConfusion h
    | ok bs =>
      simp only [h2] at h
      cases h3 : buildByVoice all_calls [] with
      | error e => simp only [h3] at h; exact Except.noConfusion h
      | ok bv =>
        simp only [h3] at h
        by_cases hne : all_calls.isEmpty
        · rw [if_pos hne] at h
          simp only [Except.ok.injEq] at h
          subst h
          refine ⟨rfl, rfl, rfl, rfl, fun _ => rfl, fun hc => ?_⟩
          exact absurd (List.isEmpty_iff.mp hne) hc
        · rw [if_neg hne] at h
          cases h4 : getFormattedTimes all_calls with
          | error e => simp only [h4] at h; exact Except.noConfusion h
          | ok fs =>
            simp only [h4, Except.ok.injEq] at h
            subst h
            refine ⟨rfl, rfl, rfl, rfl, fun hc => absurd (by simp [hc]) hne,
              fun _ => ⟨fs, rfl, ?_, rfl⟩⟩
            have hlen := getFormattedTimes_length all_calls fs h4
            intro hfs
            subst hfs
            simp only [List.length_nil] at hlen
            have hnil : all_calls = [] := List.length_eq_zero.mp hlen.symm
            subst hnil
            simp at hne

/-! ## Claims about the aggregator -/

/-- The two records of the aggregator example exactly as the claim states
them: no `formatted_time` key is present. -/
def c2Calls : List CallDict :=
  [{ type := some "speech_generation", credits_used := some 5, source := some "api" },
   { type := some "conversational_ai", credits_used := some 3 }]

/-- The aggregator example records amended with `formatted_time` fields. -/
def c2CallsTimed : List CallDict :=
  [{ type := some "speech_generation", credits_used := some 5, source := some "api",
     formatted_time := some "2022-01-01 00:00:00 UTC" },
   { type := some "conversational_ai", credits_used := some 3,
     formatted_time := some "2022-01-01 01:00:00 UTC" }]

lemma c2_strlt : ("2022-01-01 00:00:00 UTC" : String) < "2022-01-01 01:00:00 UTC" :=
  String.lt_iff_toList_lt.mpr (by decide)

lemma c2_pyMin :
    pyMin ["2022-01-01 00:00:00 UTC", "2022-01-01 01:00:00 UTC"] =
      some "2022-01-01 00:00:00 UTC" := by
  simp only [pyMin, List.foldl_cons, List.foldl_nil, pyMinFold, Option.some.injEq]
  rw [if_neg (lt_asymm c2_strlt)]

lemma c2_pyMax :
    pyMax ["2022-01-01 00:00:00 UTC", "2022-01-01 01:00:00 UTC"] =
      some "2022-01-01 01:00:00 UTC" := by
  simp only [pyMax, List.foldl_cons, List.foldl_nil, pyMaxFold, Option.some.injEq]
  rw [if_pos c2_strlt]

/-- C2 counterexample: on exactly the input records of the claim — which
carry no `formatted_time` key — the aggregator does not return the stated
summary: it raises `KeyError`, because on a nonempty input the `time_range`
computation reads `call["formatted_time"]` of every record unconditionally. -/
theorem summarize_usage_counterexample :
    summarize_usage c2Calls = Except.error "KeyError: formatted_time" := rfl

/-- C2 (amended): whenever the aggregator returns (in particular on records
that all carry `formatted_time`), `total_credits_used` is the sum of
`credits_used` (default 0 when absent), `by_type` counts and sums credits
keyed by each record's type, and `by_source` is restricted to
speech-generation records with a truthy source; on the claim's example input
amended with `formatted_time` fields, it returns `total_credits_used = 8`,
`by_type = {speech_generation: {1, 5}, conversational_ai: {1, 3}}` and
`by_source = {api: {1, 5}}`. -/
theorem summarize_usage_spec :
    (∀ (calls : List CallDict) (s : UsageSummary),
      summarize_usage calls = Except.ok s →
      s.total_credits_used = (calls.map (fun c => c.credits_used.getD 0)).sum
      ∧ (∀ t, findStat t s.breakdown_by_type =
          if (calls.filter (fun c => c.type == some t)).isEmpty then none
          else some (GroupStat.mk
            (calls.filter (fun c => c.type == some t)).length
            ((calls.filter (fun c => c.type == some t)).map
              (fun c => c.credits_used.getD 0)).sum))
      ∧ ∀ src, src ≠ "" →
          findStat src s.breakdown_by_source =
            if (calls.filter (fun c =>
                c.type == some "speech_generation" && c.source == some src)).isEmpty
            then none
            else some (GroupStat.mk
              (calls.filter (fun c =>
                c.type == some "speech_generation" && c.source == some src)).length
              ((calls.filter (fun c =>
                c.type == some "speech_generation" && c.source == some src)).map
                (fun c => c.credits_used.getD 0)).sum))
    ∧ summarize_usage c2CallsTimed = Except.ok
        { total_api_calls := 2, total_credits_used := 8,
          breakdown_by_type :=
            [("speech_generation", { count := 1, credits := 5 }),
             ("conversational_ai", { count := 1, credits := 3 })],
          breakdown_by_source := [("api", { count := 1, credits := 5 })],
          breakdown_by_voice := [],
          time_range := { earliest_call := some "2022-01-01 00:00:00 UTC",
                          latest_call := some "2022-01-01 01:00:00 UTC" } } := by
  constructor
  · intro calls s hok
    obtain ⟨hbt, hbs, -, htot, -, -⟩ := summarize_usage_ok calls s hok
    refine ⟨htot, fun t => ?_, fun src hsrc => ?_⟩
    · rw [buildByType_find calls [] s.breakdown_by_type hbt t]
      split <;> rfl
    · rw [buildBySource_find calls [] s.breakdown_by_source hbs src hsrc]
      split <;> rfl
  · have h : summarize_usage c2CallsTimed = Except.ok
        { total_api_calls := 2, total_credits_used := 8,
          breakdown_by_type :=
            [("speech_generation", { count := 1, credits := 5 }),
             ("conversational_ai", { count := 1, credits := 3 })],
          breakdown_by_source := [("api", { count := 1, credits := 5 })],
          breakdown_by_voice := [],
          time_range :=
            { earliest_call :=
                pyMin ["2022-01-01 00:00:00 UTC", "2022-01-01 01:00:00 UTC"],
              latest_call :=
                pyMax ["2022-01-01 00:00:00 UTC", "2022-01-01 01:00:00 UTC"] } } := rfl
    rw [c2_pyMin, c2_pyMax] at h
    exact h

/-- Witness for C2: the amended theorem applied to the (time-annotated)
example input, instantiated at the source key `api`. -/
theorem summarize_usage_spec_witness :
    findStat "api"
      (UsageSummary.breakdown_by_source
        { total_api_calls := 2, total_credits_used := 8,
          breakdown_by_type :=
            [("speech_generation", { count := 1, credits := 5 }),
             ("conversational_ai", { count := 1, credits := 3 })],
          breakdown_by_source := [("api", { count := 1, credits := 5 })],
          breakdown_by_voice := [],
          time_range := { earliest_call := some "2022-01-01 00:00:00 UTC",
                          latest_call := some "2022-01-01 01:00:00 UTC" } }) =
    if (c2CallsTimed.filter (fun c =>
        c.type == some "speech_generation" && c.source == some "api")).isEmpty
    then none
    else some (GroupStat.mk
      (c2CallsTimed.filter (fun c =>
        c.type == some "speech_generation" && c.source == some "api")).length
      ((c2CallsTimed.filter (fun c =>
        c.type == some "speech_generation" && c.source == some "api")).map
        (fun c => c.credits_used.getD 0)).sum) :=
  (summarize_usage_spec.1 c2CallsTimed
    { total_api_calls := 2, total_credits_used := 8,
      breakdown_by_type :=
        [("speech_generation", { count := 1, credits := 5 }),
         ("conversational_ai", { count := 1, credits := 3 })],
      breakdown_by_source := [("api", { count := 1, credits := 5 })],
      breakdown_by_voice := [],
      time_range := { earliest_call := some "2022-01-01 00:00:00 UTC",
                      latest_call := some "2022-01-01 01:00:00 UTC" } }
    summarize_usage_spec.2).2.2 "api" (by decide)

/-- C7: on the empty list the aggregator returns zero totals, empty
breakdowns and a `none`/`none` time range; whenever it returns on a nonempty
list, `earliest_call`/`latest_call` are Python `min`/`max` of the records'
formatted-time strings, and those are the lexicographically least and
greatest elements of that list. -/
theorem summarize_time_range_spec :
    (summarize_usage [] = Except.ok
      { total_api_calls := 0, total_credits_used := 0, breakdown_by_type := [],
        breakdown_by_source := [], breakdown_by_voice := [],
        time_range := { earliest_call := none, latest_call := none } })
    ∧ (∀ (calls : List CallDict) (s : UsageSummary),
        summarize_usage calls = Except.ok s → calls ≠ [] →
        s.time_range.earliest_call = pyMin (calls.filterMap (fun c => c.formatted_time))
        ∧ s.time_range.latest_call = pyMax (calls.filterMap (fun c => c.formatted_time)))
    ∧ (∀ (xs : List String) (m : String), pyMin xs = some m →
        m ∈ xs ∧ ∀ y ∈ xs, m ≤ y)
    ∧ (∀ (xs : List String) (M : String), pyMax xs = some M →
        M ∈ xs ∧ ∀ y ∈ xs, y ≤ M) := by
  refine ⟨rfl, ?_, ?_, ?_⟩
  · intro calls s hok hne
    obtain ⟨-, -, -, -, -, hfull⟩ := summarize_usage_ok calls s hok
    obtain ⟨fs, hfs, -, htr⟩ := hfull hne
    rw [htr, getFormattedTimes_eq calls fs hfs]
    exact ⟨rfl, rfl⟩
  · intro xs m h
    cases xs with
    | nil => simp [pyMin] at h
    | cons x ys =>
      simp only [pyMin, Option.some.injEq] at h
      subst h
      exact ⟨foldl_pyMinFold_mem ys x, foldl_pyMinFold_le ys x⟩
  · intro xs M h
    cases xs with
    | nil => simp [pyMax] at h
    | cons x ys =>
      simp only [pyMax, Option.some.injEq] at h
      subst h
      exact ⟨foldl_pyMaxFold_mem ys x, foldl_pyMaxFold_ge ys x⟩

/-- A nonempty aggregator input used to witness C7. -/
def c7Calls : List CallDict :=
  [{ type := some "speech_generation", credits_used := some 2,
     voice_name := some "Rachel", formatted_time := some "2022-01-02 00:00:00 UTC" },
   { type := some "conversational_ai", credits_used := some 4,
     formatted_time := some "2022-01-01 00:00:00 UTC" }]

/-- The summary produced on `c7Calls`. -/
def c7Summary : UsageSummary :=
  { total_api_calls := 2, total_credits_used := 6,
    breakdown_by_type :=
      [("speech_generation", { count := 1, credits := 2 }),
       ("conversational_ai", { count := 1, credits := 4 })],
    breakdown_by_source := [],
    breakdown_by_voice := [("Rachel", { count := 1, credits := 2 })],
    time_range := { earliest_call := some "2022-01-01 00:00:00 UTC",
                    latest_call := some "2022-01-02 00:00:00 UTC" } }

lemma c7_strlt : ("2022-01-01 00:00:00 UTC" : String) < "2022-01-02 00:00:00 UTC" :=
  String.lt_iff_toList_lt.mpr (by decide)

lemma c7_ok : summarize_usage c7Calls = Except.ok c7Summary := by
  have h : summarize_usage c7Calls = Except.ok
      { total_api_calls := 2, total_credits_used := 6,
        breakdown_by_type :=
          [("speech_generation", { count := 1, credits := 2 }),
           ("conversational_ai", { count := 1, credits := 4 })],
        breakdown_by_source := [],
        breakdown_by_voice := [("Rachel", { count := 1, credits := 2 })],
        time_range :=
          { earliest_call :=
              pyMin ["2022-01-02 00:00:00 UTC", "2022-01-01 00:00:00 UTC"],
            latest_call :=
              pyMax ["2022-01-02 00:00:00 UTC", "2022-01-01 00:00:00 UTC"] } } := rfl
  have hmin : pyMin ["2022-01-02 00:00:00 UTC", "2022-01-01 00:00:00 UTC"] =
      some "2022-01-01 00:00:00 UTC" := by
    simp only [pyMin, List.foldl_cons, List.foldl_nil, pyMinFold, Option.some.injEq]
    rw [if_pos c7_strlt]
  have hmax : pyMax ["2022-01-02 00:00:00 UTC", "2022-01-01 00:00:00 UTC"] =
      some "2022-01-02 00:00:00 UTC" := by
    simp only [pyMax, List.foldl_cons, List.foldl_nil, pyMaxFold, Option.some.injEq]
    rw [if_neg (lt_asymm c7_strlt)]
  rw [hmin, hmax] at h
  exact h

/-- Witness for C7 on a concrete nonempty input. -/
theorem summarize_time_range_spec_witness :
    c7Summary.time_range.earliest_call =
      pyMin (c7Calls.filterMap (fun c => c.formatted_time))
    ∧ c7Summary.time_range.latest_call =
      pyMax (c7Calls.filterMap (fun c => c.formatted_time)) :=
  summarize_time_range_spec.2.1 c7Calls c7Summary c7_ok (by decide)

/-- C10: whenever every input record has a `type` field and the aggregator
returns, its output is internally consistent: `total_api_calls` equals the
sum of the `count` fields over `breakdown_by_type` and `total_credits_used`
equals the sum of its `credits` fields. -/
theorem summary_internally_consistent :
    ∀ (calls : List CallDict) (s : UsageSummary),
      (∀ c ∈ calls, c.type.isSome) →
      summarize_usage calls = Except.ok s →
      s.total_api_calls = statCountSum s.breakdown_by_type
      ∧ s.total_credits_used = statCreditSum s.breakdown_by_type := by
  intro calls s htype hok
  obtain ⟨hbt, -, hlen, htot, -, -⟩ := summarize_usage_ok calls s hok
  obtain ⟨hc, hs⟩ := buildByType_sums calls [] s.breakdown_by_type hbt
  constructor
  · rw [hlen, hc]
    simp [statCountSum]
  · rw [htot, hs]
    simp [statCreditSum]

/-- A concrete input used to witness C10. -/
def c10Calls : List CallDict :=
  [{ type := some "speech_generation", credits_used := some 2,
     formatted_time := some "a" },
   { type := some "speech_generation", formatted_time := some "b" }]

/-- The summary produced on `c10Calls`. -/
def c10Summary : UsageSummary :=
  { total_api_calls := 2, total_credits_used := 2,
    breakdown_by_type := [("speech_generation", { count := 2, credits := 2 })],
    breakdown_by_source := [], breakdown_by_voice := [],
    time_range := { earliest_call := some "a", latest_call := some "b" } }

lemma c10_strlt : ("a" : String) < "b" := String.lt_iff_toList_lt.mpr (by decide)

lemma c10_ok : summarize_usage c10Calls = Except.ok c10Summary := by
  have h : summarize_usage c10Calls = Except.ok
      { total_api_calls := 2, total_credits_used := 2,
        breakdown_by_type := [("speech_generation", { count := 2, credits := 2 })],
        breakdown_by_source := [], breakdown_by_voice := [],
        time_range := { earliest_call := pyMin ["a", "b"],
                        latest_call := pyMax ["a", "b"] } } := rfl
  have hmin : pyMin ["a", "b"] = some "a" := by
    simp only [pyMin, List.foldl_cons, List.foldl_nil, pyMinFold, Option.some.injEq]
    rw [if_neg (lt_asymm c10_strlt)]
  have hmax : pyMax ["a", "b"] = some "b" := by
    simp only [pyMax, List.foldl_cons, List.foldl_nil, pyMaxFold, Option.some.injEq]
    rw [if_pos c10_strlt]
  rw [hmin, hmax] at h
  exact h

/-- Witness for C10 on a concrete input. -/
theorem summary_internally_consistent_witness :
    c10Summary.total_api_calls = statCountSum c10Summary.breakdown_by_type
    ∧ c10Summary.total_credits_used = statCreditSum c10Summary.breakdown_by_type :=
  summary_internally_consistent c10Calls c10Summary (by decide) c10_ok

/-! ## Concrete witnesses for the fetcher claims -/

/-- A history item strictly older than the witness window. -/
def c1OldItem : SpeechItem :=
  { history_item_id := "old", date_unix := 0, charChange := some (5, 2) }

/-- Witness for C1: a single-page source whose only item is older than
`start_ms` yields the same result as the empty truncated source. -/
theorem speech_history_early_stop_witness :
    get_speech_history 1000 3000
        ([] ++ Except.ok { history := [] ++ c1OldItem :: [], has_more := true } :: []) =
      get_speech_history 1000 3000 ([] ++ [Except.ok { history := [], has_more := false }]) :=
  (speech_history_early_stop 1000 3000 [] [] [] [] c1OldItem true (by decide)).1

/-- An in-window history item for the C8 witness. -/
def c8Item : SpeechItem :=
  { history_item_id := "hit", date_unix := 2, charChange := some (9, 4) }

/-- A history item newer than the C8 witness window. -/
def c8SkipItem : SpeechItem :=
  { history_item_id := "new", date_unix := 5, charChange := some (1, 0) }

/-- A history item older than the C8 witness window. -/
def c8OldItem : SpeechItem :=
  { history_item_id := "past", date_unix := 0, charChange := some (1, 0) }

/-- Witness for C8: the record fetched from an in-window item lies inside the
window, an item newer than `end_ms` is skipped without ending the scan, and
an item older than `start_ms` terminates the scan. -/
theorem speech_history_window_witness :
    (1000 ≤ (mkSpeechRecord c8Item 9 4).timestamp_ms
      ∧ (mkSpeechRecord c8Item 9 4).timestamp_ms ≤ 3000)
    ∧ speechScan 1000 3000 [] (c8SkipItem :: [c8Item]) =
        speechScan 1000 3000 [] [c8Item]
    ∧ speechScan 1000 3000 [] (c8OldItem :: [c8Item]) = ([], true) :=
  ⟨(speech_history_window 1000 3000
      [Except.ok { history := [c8Item], has_more := false }]).1
      (mkSpeechRecord c8Item 9 4) (by decide),
   (speech_history_window 1000 3000 []).2.1 c8SkipItem [c8Item] [] (by decide) (by decide),
   (speech_history_window 1000 3000 []).2.2 c8OldItem [c8Item] [] (by decide)⟩

/-- An in-window history item for the C9 witness. -/
def c9Item : SpeechItem :=
  { history_item_id := "s", date_unix := 3, charChange := some (4, 1) }

/-- A listed conversation for the C9 witness. -/
def c9Conv : ConvListItem :=
  { conversation_id := "c9", agent_id := "ag", start_time_unix_secs := 7,
    call_duration_secs := 60, status := "done" }

/-- A detail endpoint that always fails, for the C9 witness. -/
def c9Fetch : String → Except String DetailedConv := fun _ => Except.error "boom"

/-- Witness for C9: a fetched speech record and a degraded conversation
record both satisfy the timestamp/formatting invariants. -/
theorem records_timestamp_consistent_witness :
    ((mkSpeechRecord c9Item 4 1).timestamp_ms =
        (mkSpeechRecord c9Item 4 1).timestamp * 1000
      ∧ (mkSpeechRecord c9Item 4 1).formatted_time =
          format_timestamp (mkSpeechRecord c9Item 4 1).timestamp_ms)
    ∧ ((degradedConvRecord c9Conv "boom").timestamp_ms =
          (degradedConvRecord c9Conv "boom").timestamp * 1000
      ∧ (degradedConvRecord c9Conv "boom").formatted_time =
          format_timestamp (degradedConvRecord c9Conv "boom").timestamp_ms) :=
  ⟨records_timestamp_consistent.1 1000 5000
      [Except.ok { history := [c9Item], has_more := false }]
      (mkSpeechRecord c9Item 4 1) (by decide),
   records_timestamp_consistent.2 c9Fetch 0 100000
      [Except.ok { conversations := [c9Conv], cursor := none }]
      (degradedConvRecord c9Conv "boom") (by decide)⟩

/-- A listed conversation for the C4 witness. -/
def c4Conv : ConvListItem :=
  { conversation_id := "conv4", agent_id := "ag", start_time_unix_secs := 10,
    call_duration_secs := 30, status := "ok" }

/-- A detailed conversation with mixed token-usage availability. -/
def c4Detail : DetailedConv :=
  { metadata := some
      { start_time_unix_secs := 10, call_duration_secs := 30, cost := some 12 },
    transcript :=
      [{ role := "user", llm_usage := some { total_tokens := some 40 } },
       { role := "assistant", llm_usage := some { total_tokens := none } },
       { role := "assistant" },
       { role := "user", llm_usage := some { total_tokens := some 2 } }] }

/-- A detail endpoint that returns `c4Detail` for every id. -/
def c4Fetch : String → Except String DetailedConv := fun _ => Except.ok c4Detail

/-- The record emitted for `c4Conv`. -/
def c4Record : ConvRecord := processConversation c4Fetch c4Conv

/-- Witness for C4 on a concrete enriched session. -/
theorem conversation_enrichment_totals_witness :
    processConversation c4Fetch c4Conv = c4Record
    ∧ c4Record.credits_used =
        (match c4Detail.metadata with
         | none => 0
         | some md => md.cost.getD 0)
    ∧ c4Record.total_llm_tokens =
        some ((c4Detail.transcript.filterMap
          (fun t => t.llm_usage.bind LlmUsage.total_tokens)).sum) :=
  conversation_enrichment_totals c4Fetch c4Conv c4Detail c4Record rfl rfl

/-- Metadata for the two successful C5 sessions. -/
def c5Meta : ConvMetadata :=
  { start_time_unix_secs := 5, call_duration_secs := 10, cost := some 3 }

/-- Detail record for the two successful C5 sessions. -/
def c5Detail : DetailedConv := { metadata := some c5Meta, transcript := [] }

/-- The three listed conversations of the C5 witness. -/
def c5a : ConvListItem :=
  { conversation_id := "v1", agent_id := "a1", start_time_unix_secs := 5,
    call_duration_secs := 10, status := "done" }

/-- Second listed conversation (its detail fetch fails). -/
def c5b : ConvListItem :=
  { conversation_id := "v2", agent_id := "a1", start_time_unix_secs := 6,
    call_duration_secs := 11, status := "done" }

/-- Third listed conversation. -/
def c5c : ConvListItem :=
  { conversation_id := "v3", agent_id := "a2", start_time_unix_secs := 7,
    call_duration_secs := 12, status := "done" }

/-- A detail endpoint failing exactly on conversation `v2`. -/
def c5Fetch : String → Except String DetailedConv :=
  fun conversation_id =>
    if conversation_id = "v2" then Except.error "boom" else Except.ok c5Detail

/-- Witness for C5 on a concrete two-page source with one failing session. -/
theorem conversation_failure_isolated_witness :
    (get_conversation_history c5Fetch 0 100000
        [Except.ok { conversations := [c5a, c5b], cursor := some "next" },
         Except.ok { conversations := [c5c], cursor := none }]).length = 3
    ∧ (get_conversation_history c5Fetch 0 100000
        [Except.ok { conversations := [c5a, c5b], cursor := some "next" },
         Except.ok { conversations := [c5c], cursor := none }]).map
          (fun r => (r.id, r.error.isSome)) =
        [(c5a.conversation_id, false), (c5b.conversation_id, true),
         (c5c.conversation_id, false)] :=
  conversation_failure_isolated c5Fetch 0 100000 c5a c5b c5c c5Detail c5Detail
    c5Meta c5Meta "boom" rfl rfl rfl rfl rfl
